import Mathlib

/-!
Shallow embedding of the iterative EV-adoption forecasting engine of
`src/app.py` (the functions `calculate_feature_engineering_values` and
`generate_forecast`), together with theorems settling the specification
claims about it.

Modelling conventions:
* Python floats are modelled as exact rationals (`ℚ`); the guard thresholds
  (`0.7`, `1.5`, `0.95`, `1.1`, `0.8`, `1.3`, `0.98`, `1.05`, `1.01`, `1.02`,
  `0.1`) are exact decimal rationals.
* Dates (`datetime`) are modelled as integers counting days;
  `timedelta(days = d)` is addition of `d`; `max(dates)` is `List.max?`.
* The black-box regressor is modelled as a function from the feature vector to
  `Option ℚ`; `none` models the `predict` call raising an exception, which in
  the source is caught by the per-step `except` handler.
* Top-level Python exceptions (`ValueError` and the errors re-raised by the
  outer handler) are modelled with `Except String`.
* `base_months` is computed in the source from an external CSV file (with a
  hard-coded fallback start date); the embedding abstracts that external read
  as the parameter `baseMonths`.  Likewise `str(type(model).__name__)` is
  abstracted as `modelTypeName` and `datetime.now()` as the clock input `now`.
-/

namespace EVForecast

/-- Python negative indexing `l[-k]`, defaulting to `0` when out of range.
Every use in the embedding sits under the same explicit length guard as the
corresponding indexing in the source. -/
def nthFromEnd (l : List ℚ) (k : ℕ) : ℚ := l.getD (l.length - k) 0

/-- The nine named fields of the `feature_data` dictionary built in
`generate_forecast` (and `prepare_model_input`), in their fixed order. -/
structure FeatureVector where
  months_since_start : ℚ
  county_encoded : ℚ
  ev_total_lag1 : ℚ
  ev_total_lag2 : ℚ
  ev_total_lag3 : ℚ
  ev_total_roll_mean_3 : ℚ
  ev_total_pct_change_1 : ℚ
  ev_total_pct_change_3 : ℚ
  ev_growth_slope : ℚ
deriving DecidableEq, Repr

/-- A loaded regressor: one `predict` call on a single feature row.  A `none`
result models the call raising an exception. -/
abbrev Model := FeatureVector → Option ℚ

/-- Mean of the last three values, `float(np.mean(ev_totals[-3:]))`. -/
def rollMean3 (l : List ℚ) : ℚ :=
  let r := l.drop (l.length - 3)
  r.sum / (r.length : ℚ)

/-- Percentage change over one step: `(v[-1] - v[-2]) / v[-2]` guarded by
`len(ev_totals) >= 2 and ev_totals[-2] != 0`, else `0.0`. -/
def pctChange1 (l : List ℚ) : ℚ :=
  if 2 ≤ l.length ∧ nthFromEnd l 2 ≠ 0 then
    (nthFromEnd l 1 - nthFromEnd l 2) / nthFromEnd l 2
  else 0

/-- Percentage change over three steps: `(v[-1] - v[-4]) / v[-4]` guarded by
`len(ev_totals) >= 4 and ev_totals[-4] != 0`, else `0.0`. -/
def pctChange3 (l : List ℚ) : ℚ :=
  if 4 ≤ l.length ∧ nthFromEnd l 4 ≠ 0 then
    (nthFromEnd l 1 - nthFromEnd l 4) / nthFromEnd l 4
  else 0

/-- Least-squares slope `np.polyfit(x_values, y_values, 1)[0]` over the last
`min 6 l.length` points with x-coordinates `0, 1, ...` (closed form of the
degree-one least-squares fit), guarded by `len(x_values) > 1`, else `0.0`. -/
def growthSlope (l : List ℚ) : ℚ :=
  let k := min 6 l.length
  let y := l.drop (l.length - k)
  let xs := (List.range k).map (fun i => (i : ℚ))
  if 1 < k then
    ((k : ℚ) * ((xs.zip y).map (fun p => p.1 * p.2)).sum - xs.sum * y.sum) /
      ((k : ℚ) * (xs.map (fun x => x * x)).sum - xs.sum * xs.sum)
  else 0

/-- The feature vector computed inside the forecast loop from the working
series `current_ev_totals` (lines 1245-1287 of `src/app.py`). -/
def loopFeatures (monthsSinceStart countyEncoded : ℚ) (cur : List ℚ) :
    FeatureVector :=
  { months_since_start := monthsSinceStart
    county_encoded := countyEncoded
    ev_total_lag1 := nthFromEnd cur 1
    ev_total_lag2 := nthFromEnd cur 2
    ev_total_lag3 := nthFromEnd cur 3
    ev_total_roll_mean_3 := rollMean3 cur
    ev_total_pct_change_1 := pctChange1 cur
    ev_total_pct_change_3 := pctChange3 cur
    ev_growth_slope := growthSlope cur }

/-- First-step stability clamp (lines 1294-1301): the branch taken when
`len(predictions) == 0`, with `cur` the last value of the working series. -/
def firstStepGuard (cur raw : ℚ) : ℚ :=
  if raw < cur * 0.7 then cur * 0.95
  else if raw > cur * 1.5 then cur * 1.1
  else raw

/-- Subsequent-step stability clamp (lines 1302-1311): the branch taken when
predictions already exist, with `prev` the previous accepted prediction. -/
def laterStepGuard (prev raw : ℚ) : ℚ :=
  if raw < prev * 0.8 then prev * 0.98
  else if raw > prev * 1.3 then prev * 1.05
  else raw

/-- The mutable loop state of `generate_forecast`: the `predictions` and
`prediction_dates` accumulators and the working series `current_ev_totals`. -/
structure LoopState where
  predictions : List ℚ
  prediction_dates : List ℤ
  current_ev_totals : List ℚ
deriving DecidableEq, Repr

/-- The per-step `except` handler (lines 1330-1344): extend from the last
prediction times `1.02` when one exists, else from the last historical value
times `1.01`.  The fallback value is appended to `predictions` and its date is
recorded, but it is NOT appended to `current_ev_totals` (the source handler
has no `current_ev_totals.append`). -/
def fallbackStep (histEvTotals : List ℚ) (latestDate : ℤ) (monthAhead : ℕ)
    (st : LoopState) : LoopState :=
  let p :=
    match st.predictions.getLast? with
    | some lastP => lastP * 1.02
    | none => nthFromEnd histEvTotals 1 * 1.01
  { st with
    predictions := st.predictions ++ [p]
    prediction_dates := st.prediction_dates ++ [latestDate + 30 * (monthAhead : ℤ)] }

/-- One iteration of the forecast loop (lines 1240-1344), for iteration index
`month_ahead`.  When the working series has at least 3 points and the
regressor succeeds, the raw prediction is clamped, floored by
`predictions[-1] * 1.01` when a prediction exists, floored by `0.1`, and
appended to both `predictions` and `current_ev_totals`; any failure (the
series shorter than 3 points, or the regressor raising) takes the fallback. -/
def forecastStep (model : Model) (countyEncoded baseMonths : ℚ)
    (histEvTotals : List ℚ) (latestDate : ℤ) (monthAhead : ℕ)
    (st : LoopState) : LoopState :=
  if 3 ≤ st.current_ev_totals.length then
    match model (loopFeatures (baseMonths + (monthAhead : ℚ)) countyEncoded
        st.current_ev_totals) with
    | some raw =>
      let p1 :=
        match st.predictions.getLast? with
        | none => firstStepGuard (nthFromEnd st.current_ev_totals 1) raw
        | some prev => laterStepGuard prev raw
      let p2 :=
        match st.predictions.getLast? with
        | none => p1
        | some prev => max p1 (prev * 1.01)
      let p3 := max 0.1 p2
      { predictions := st.predictions ++ [p3]
        prediction_dates := st.prediction_dates ++ [latestDate + 30 * (monthAhead : ℤ)]
        current_ev_totals := st.current_ev_totals ++ [p3] }
    | none => fallbackStep histEvTotals latestDate monthAhead st
  else fallbackStep histEvTotals latestDate monthAhead st

/-- Run `n` remaining loop iterations, the next one having index `monthAhead`
(the source loop runs `month_ahead` over `range(1, forecast_months + 1)`). -/
def runSteps (model : Model) (countyEncoded baseMonths : ℚ)
    (histEvTotals : List ℚ) (latestDate : ℤ) :
    ℕ → ℕ → LoopState → LoopState
  | 0, _, st => st
  | n + 1, monthAhead, st =>
      runSteps model countyEncoded baseMonths histEvTotals latestDate n
        (monthAhead + 1)
        (forecastStep model countyEncoded baseMonths histEvTotals latestDate
          monthAhead st)

/-- The whole forecast loop, started from `predictions = []` and a copy of the
historical series as the working series. -/
def runForecastLoop (model : Model) (countyEncoded baseMonths : ℚ)
    (histEvTotals : List ℚ) (latestDate : ℤ) (forecastMonths : ℕ) : LoopState :=
  runSteps model countyEncoded baseMonths histEvTotals latestDate
    forecastMonths 1
    { predictions := [], prediction_dates := [], current_ev_totals := histEvTotals }

/-- The `metadata` field of the forecast result dictionary. -/
structure Metadata where
  model_type : String
  prediction_date : ℤ
  forecast_months : ℕ
  historical_data_points : ℕ
deriving DecidableEq, Repr

/-- The `forecast_result` dictionary returned by `generate_forecast`. -/
structure ForecastResult where
  county : String
  state : String
  forecast_period : String
  prediction_dates : List ℤ
  predicted_values : List ℚ
  latest_historical_value : ℚ
  latest_historical_date : ℤ
  total_growth : ℚ
  avg_monthly_growth : ℚ
  growth_percentage : ℚ
  metadata : Metadata
deriving DecidableEq, Repr

/-- The slice of `county_data` that `generate_forecast` reads for the selected
county: its state name and historical series (`dates` in days, `ev_totals`). -/
structure CountyInfo where
  state : String
  dates : List ℤ
  ev_totals : List ℚ
deriving DecidableEq, Repr

/-- The function `generate_forecast` (lines 1189-1380 of `src/app.py`).
`countyInfo = none` models `get_county_info` returning nothing and
`countyEncoded = none` models a failed county-encoding lookup.  An empty
`dates` list makes `max(historical_data[...])` raise; an empty `ev_totals`
list makes the indexing `ev_totals[-1]` raise (inside the first fallback when
the loop runs, or at `latest_historical` after it), so both are error paths
of the whole call. -/
def generate_forecast (countyName : String) (countyInfo : Option CountyInfo)
    (countyEncoded : Option ℚ) (model : Option Model) (baseMonths : ℚ)
    (modelTypeName : String) (now : ℤ) (forecastMonths : ℕ) :
    Except String ForecastResult :=
  match model with
  | none => Except.error "Model is not available for prediction"
  | some m =>
    match countyInfo with
    | none => Except.error "County not found in data"
    | some info =>
      match countyEncoded with
      | none => Except.error "Could not find encoding for county"
      | some ce =>
        match info.dates.max? with
        | none => Except.error "max() arg is an empty sequence"
        | some latestDate =>
          if info.ev_totals = [] then Except.error "list index out of range"
          else
            let final := runForecastLoop m ce baseMonths info.ev_totals
              latestDate forecastMonths
            let latestHistorical := nthFromEnd info.ev_totals 1
            let totalGrowth :=
              match final.predictions.getLast? with
              | some p => p - latestHistorical
              | none => 0
            Except.ok
              { county := countyName
                state := info.state
                forecast_period := toString forecastMonths ++ " months"
                prediction_dates := final.prediction_dates
                predicted_values := final.predictions
                latest_historical_value := latestHistorical
                latest_historical_date := latestDate
                total_growth := totalGrowth
                avg_monthly_growth :=
                  if 0 < forecastMonths then totalGrowth / (forecastMonths : ℚ)
                  else 0
                growth_percentage :=
                  if 0 < latestHistorical then totalGrowth / latestHistorical * 100
                  else 0
                metadata :=
                  { model_type := modelTypeName
                    prediction_date := now
                    forecast_months := forecastMonths
                    historical_data_points := info.ev_totals.length } }

/-- The dictionary of engineered features returned by
`calculate_feature_engineering_values`. -/
structure FeatureValues where
  ev_total_lag1 : ℚ
  ev_total_lag2 : ℚ
  ev_total_lag3 : ℚ
  ev_total_roll_mean_3 : ℚ
  ev_total_pct_change_1 : ℚ
  ev_total_pct_change_3 : ℚ
  ev_growth_slope : ℚ
deriving DecidableEq, Repr

/-- The function `calculate_feature_engineering_values` (lines 1046-1105 of
`src/app.py`): raises for fewer than 3 data points, otherwise returns the
seven engineered features. -/
def calculate_feature_engineering_values (ev_totals : List ℚ) :
    Except String FeatureValues :=
  if ev_totals.length < 3 then
    Except.error "Insufficient historical data for feature engineering"
  else
    Except.ok
      { ev_total_lag1 := if 1 ≤ ev_totals.length then nthFromEnd ev_totals 1 else 0
        ev_total_lag2 := if 2 ≤ ev_totals.length then nthFromEnd ev_totals 2 else 0
        ev_total_lag3 := if 3 ≤ ev_totals.length then nthFromEnd ev_totals 3 else 0
        ev_total_roll_mean_3 := rollMean3 ev_totals
        ev_total_pct_change_1 := pctChange1 ev_totals
        ev_total_pct_change_3 := pctChange3 ev_totals
        ev_growth_slope := if 3 ≤ ev_totals.length then growthSlope ev_totals else 0 }

/-- Predicted values of a successful forecast call (empty on the error path). -/
def okPredictedValues (e : Except String ForecastResult) : List ℚ :=
  match e with
  | Except.ok r => r.predicted_values
  | Except.error _ => []

/-- A forecast result with its generation timestamp (`datetime.now()`) zeroed
out, used to compare two results up to the clock reading. -/
def eraseTimestamp (r : ForecastResult) : ForecastResult :=
  { r with metadata := { r.metadata with prediction_date := 0 } }

/-!
Heap model of Python list objects, used to settle the frame claim that
`generate_forecast` never mutates the list held by the caller.  A `Heap` maps
addresses (indices into `data`) to list objects; `alloc` models `list.copy()`
creating a fresh object, `append1` models `lst.append(x)` mutating the object
in place.  The `predictions` and `prediction_dates` lists are fresh objects
local to the call and never escape, so they are kept as plain values.
-/

/-- A store of Python list objects: address `r` holds `data.getD r []`. -/
structure Heap where
  data : List (List ℚ)
deriving DecidableEq, Repr

/-- Contents of the list object at address `r`. -/
def Heap.get (h : Heap) (r : ℕ) : List ℚ := h.data.getD r []

/-- Allocate a fresh list object holding `v`, returning its address. -/
def Heap.alloc (h : Heap) (v : List ℚ) : ℕ × Heap :=
  (h.data.length, ⟨h.data ++ [v]⟩)

/-- In-place `append` of `x` to the list object at address `r`. -/
def Heap.append1 (h : Heap) (r : ℕ) (x : ℚ) : Heap :=
  ⟨h.data.set r (h.get r ++ [x])⟩

/-- Loop state for the heap-level model: the working series lives in the heap
(at the address `curRef` passed to the step function). -/
structure HeapLoopState where
  predictions : List ℚ
  prediction_dates : List ℤ
  heap : Heap
deriving DecidableEq, Repr

/-- Heap-level per-step fallback handler (reads the original historical list
object at `histRef`; touches no list object). -/
def fallbackStepH (histRef : ℕ) (latestDate : ℤ) (monthAhead : ℕ)
    (st : HeapLoopState) : HeapLoopState :=
  let p :=
    match st.predictions.getLast? with
    | some lastP => lastP * 1.02
    | none => nthFromEnd (st.heap.get histRef) 1 * 1.01
  { st with
    predictions := st.predictions ++ [p]
    prediction_dates := st.prediction_dates ++ [latestDate + 30 * (monthAhead : ℤ)] }

/-- Heap-level loop iteration: identical to `forecastStep` except that the
working series is the list object at `curRef`, mutated in place by
`current_ev_totals.append(prediction)`. -/
def forecastStepH (model : Model) (countyEncoded baseMonths : ℚ)
    (histRef curRef : ℕ) (latestDate : ℤ) (monthAhead : ℕ)
    (st : HeapLoopState) : HeapLoopState :=
  let cur := st.heap.get curRef
  if 3 ≤ cur.length then
    match model (loopFeatures (baseMonths + (monthAhead : ℚ)) countyEncoded cur) with
    | some raw =>
      let p1 :=
        match st.predictions.getLast? with
        | none => firstStepGuard (nthFromEnd cur 1) raw
        | some prev => laterStepGuard prev raw
      let p2 :=
        match st.predictions.getLast? with
        | none => p1
        | some prev => max p1 (prev * 1.01)
      let p3 := max 0.1 p2
      { predictions := st.predictions ++ [p3]
        prediction_dates := st.prediction_dates ++ [latestDate + 30 * (monthAhead : ℤ)]
        heap := st.heap.append1 curRef p3 }
    | none => fallbackStepH histRef latestDate monthAhead st
  else fallbackStepH histRef latestDate monthAhead st

/-- Heap-level loop driver, mirroring `runSteps`. -/
def runStepsH (model : Model) (countyEncoded baseMonths : ℚ)
    (histRef curRef : ℕ) (latestDate : ℤ) :
    ℕ → ℕ → HeapLoopState → HeapLoopState
  | 0, _, st => st
  | n + 1, monthAhead, st =>
      runStepsH model countyEncoded baseMonths histRef curRef latestDate n
        (monthAhead + 1)
        (forecastStepH model countyEncoded baseMonths histRef curRef latestDate
          monthAhead st)

/-- Heap-level model of `generate_forecast` for a county found in the data:
the historical series is the list object at `histRef` in the caller-owned heap
`h0`; the state name and date list of the county are passed alongside.  The
source allocates `ev_totals = historical_data[...].copy()` right after the
county lookup and `current_ev_totals = ev_totals.copy()` before the loop, and
every in-place `append` targets `current_ev_totals`; the final statistics
re-read the original historical list object. -/
def generate_forecast_heap (countyName stateName : String) (dates : List ℤ)
    (h0 : Heap) (histRef : ℕ) (countyEncoded : Option ℚ) (model : Option Model)
    (baseMonths : ℚ) (modelTypeName : String) (now : ℤ) (forecastMonths : ℕ) :
    Except String ForecastResult × Heap :=
  match model with
  | none => (Except.error "Model is not available for prediction", h0)
  | some m =>
    let ev := h0.alloc (h0.get histRef)
    match countyEncoded with
    | none => (Except.error "Could not find encoding for county", ev.2)
    | some ce =>
      match dates.max? with
      | none => (Except.error "max() arg is an empty sequence", ev.2)
      | some latestDate =>
        let cur := ev.2.alloc (ev.2.get ev.1)
        if cur.2.get histRef = [] then
          (Except.error "list index out of range", cur.2)
        else
          let final := runStepsH m ce baseMonths histRef cur.1 latestDate
            forecastMonths 1
            { predictions := [], prediction_dates := [], heap := cur.2 }
          let histAtEnd := final.heap.get histRef
          let latestHistorical := nthFromEnd histAtEnd 1
          let totalGrowth :=
            match final.predictions.getLast? with
            | some p => p - latestHistorical
            | none => 0
          (Except.ok
            { county := countyName
              state := stateName
              forecast_period := toString forecastMonths ++ " months"
              prediction_dates := final.prediction_dates
              predicted_values := final.predictions
              latest_historical_value := latestHistorical
              latest_historical_date := latestDate
              total_growth := totalGrowth
              avg_monthly_growth :=
                if 0 < forecastMonths then totalGrowth / (forecastMonths : ℚ)
                else 0
              growth_percentage :=
                if 0 < latestHistorical then totalGrowth / latestHistorical * 100
                else 0
              metadata :=
                { model_type := modelTypeName
                  prediction_date := now
                  forecast_months := forecastMonths
                  historical_data_points := histAtEnd.length } }, final.heap)

/-!
## Step and loop characterization lemmas
-/

/-- A non-fallback iteration whose predecessor list is empty: clamp with the
first-step guard, skip the growth floor, apply the hard floor, append. -/
theorem forecastStep_of_pred_first (model : Model) (ce bm : ℚ) (hist : List ℚ)
    (latest : ℤ) (m : ℕ) (st : LoopState) (raw : ℚ)
    (hlen : 3 ≤ st.current_ev_totals.length)
    (hmodel : model (loopFeatures (bm + (m : ℚ)) ce st.current_ev_totals) = some raw)
    (hfirst : st.predictions.getLast? = none) :
    forecastStep model ce bm hist latest m st =
      { predictions := st.predictions ++
          [max 0.1 (firstStepGuard (nthFromEnd st.current_ev_totals 1) raw)]
        prediction_dates := st.prediction_dates ++ [latest + 30 * (m : ℤ)]
        current_ev_totals := st.current_ev_totals ++
          [max 0.1 (firstStepGuard (nthFromEnd st.current_ev_totals 1) raw)] } := by
  unfold forecastStep
  rw [if_pos hlen, hmodel, hfirst]

/-- A non-fallback iteration with a previous accepted prediction `prev`: clamp
with the later-step guard, floor by `prev * 1.01`, apply the hard floor,
append. -/
theorem forecastStep_of_pred_later (model : Model) (ce bm : ℚ) (hist : List ℚ)
    (latest : ℤ) (m : ℕ) (st : LoopState) (raw prev : ℚ)
    (hlen : 3 ≤ st.current_ev_totals.length)
    (hmodel : model (loopFeatures (bm + (m : ℚ)) ce st.current_ev_totals) = some raw)
    (hprev : st.predictions.getLast? = some prev) :
    forecastStep model ce bm hist latest m st =
      { predictions := st.predictions ++
          [max 0.1 (max (laterStepGuard prev raw) (prev * 1.01))]
        prediction_dates := st.prediction_dates ++ [latest + 30 * (m : ℤ)]
        current_ev_totals := st.current_ev_totals ++
          [max 0.1 (max (laterStepGuard prev raw) (prev * 1.01))] } := by
  unfold forecastStep
  rw [if_pos hlen, hmodel, hprev]

/-- A raising regressor sends the iteration to the fallback handler. -/
theorem forecastStep_of_none (model : Model) (ce bm : ℚ) (hist : List ℚ)
    (latest : ℤ) (m : ℕ) (st : LoopState)
    (hmodel : model (loopFeatures (bm + (m : ℚ)) ce st.current_ev_totals) = none) :
    forecastStep model ce bm hist latest m st
      = fallbackStep hist latest m st := by
  unfold forecastStep
  split
  · rw [hmodel]
  · rfl

/-- A working series shorter than 3 points sends the iteration to the
fallback handler. -/
theorem forecastStep_of_short (model : Model) (ce bm : ℚ) (hist : List ℚ)
    (latest : ℤ) (m : ℕ) (st : LoopState)
    (hlen : st.current_ev_totals.length < 3) :
    forecastStep model ce bm hist latest m st
      = fallbackStep hist latest m st := by
  unfold forecastStep
  rw [if_neg (by omega)]

/-- Every iteration, fallback or not, appends exactly one prediction and the
date `latest + 30 * month_ahead` and leaves earlier entries unchanged. -/
theorem forecastStep_append (model : Model) (ce bm : ℚ) (hist : List ℚ)
    (latest : ℤ) (m : ℕ) (st : LoopState) :
    ∃ p : ℚ,
      (forecastStep model ce bm hist latest m st).predictions
        = st.predictions ++ [p] ∧
      (forecastStep model ce bm hist latest m st).prediction_dates
        = st.prediction_dates ++ [latest + 30 * (m : ℤ)] := by
  unfold forecastStep fallbackStep
  split
  · rcases h : model (loopFeatures (bm + (m : ℚ)) ce st.current_ev_totals) with _ | raw
    · exact ⟨_, rfl, rfl⟩
    · exact ⟨_, rfl, rfl⟩
  · exact ⟨_, rfl, rfl⟩

/-- Unfolding lemma: zero remaining iterations. -/
theorem runSteps_zero (model : Model) (ce bm : ℚ) (hist : List ℚ)
    (latest : ℤ) (m : ℕ) (st : LoopState) :
    runSteps model ce bm hist latest 0 m st = st := rfl

/-- Unfolding lemma: one more iteration. -/
theorem runSteps_succ (model : Model) (ce bm : ℚ) (hist : List ℚ)
    (latest : ℤ) (n m : ℕ) (st : LoopState) :
    runSteps model ce bm hist latest (n + 1) m st
      = runSteps model ce bm hist latest n (m + 1)
          (forecastStep model ce bm hist latest m st) := rfl

/-- After `n` iterations starting at index `m`, exactly `n` predictions have
been appended and the recorded dates are `latest + 30 * (m + i)` in order. -/
theorem runSteps_count_dates (model : Model) (ce bm : ℚ) (hist : List ℚ)
    (latest : ℤ) :
    ∀ (n m : ℕ) (st : LoopState),
      (runSteps model ce bm hist latest n m st).predictions.length
        = st.predictions.length + n ∧
      (runSteps model ce bm hist latest n m st).prediction_dates
        = st.prediction_dates
            ++ (List.range n).map (fun i => latest + 30 * ((m + i : ℕ) : ℤ)) := by
  intro n
  induction n with
  | zero => intro m st; simp [runSteps_zero]
  | succ n ih =>
      intro m st
      obtain ⟨p, hp, hd⟩ := forecastStep_append model ce bm hist latest m st
      rw [runSteps_succ]
      obtain ⟨ihl, ihd⟩ := ih (m + 1) (forecastStep model ce bm hist latest m st)
      constructor
      · rw [ihl, hp]
        simp
        omega
      · rw [ihd, hd, List.append_assoc]
        congr 1
        rw [List.range_succ_eq_map, List.map_cons, List.map_map,
          List.singleton_append]
        congr 1
        apply List.map_congr_left
        intro a _
        show latest + 30 * ((m + 1 + a : ℕ) : ℤ)
          = latest + 30 * ((m + (a + 1) : ℕ) : ℤ)
        push_cast
        ring

/-- Characterization of a successful `generate_forecast` call: when the model
and county are present, the dates are nonempty with maximum `latest` and the
historical series is nonempty, the call returns `Except.ok` and its value and
date lists are those produced by the forecast loop. -/
theorem generate_forecast_ok_fields (countyName : String) (info : CountyInfo)
    (ce : ℚ) (m : Model) (bm : ℚ) (mtn : String) (now : ℤ) (fm : ℕ)
    (latest : ℤ) (hd : info.dates.max? = some latest)
    (he : info.ev_totals ≠ []) :
    ∃ r : ForecastResult,
      generate_forecast countyName (some info) (some ce) (some m) bm mtn now fm
        = Except.ok r ∧
      r.predicted_values = (runForecastLoop m ce bm info.ev_totals latest fm).predictions ∧
      r.prediction_dates
        = (runForecastLoop m ce bm info.ev_totals latest fm).prediction_dates := by
  simp only [generate_forecast, hd]
  rw [if_neg he]
  exact ⟨_, rfl, rfl, rfl⟩

/-!
## Claim C1
-/

/-- C1: for every county whose history has at least 3 points, every non-null
model and every horizon at least 1, `generate_forecast` returns a result
whose `predicted_values` and `prediction_dates` lists both have length
exactly `horizon`, and the prediction dates are strictly increasing with
consecutive dates exactly 30 days apart: the date of step `k` is the last
historical date plus `30 * k` days, on both the normal and the fallback path
(the model is universally quantified, so it may succeed or raise at any
step). -/
theorem claim_C1 (countyName : String) (info : CountyInfo) (ce : ℚ)
    (m : Model) (bm : ℚ) (mtn : String) (now : ℤ) (horizon : ℕ) (latest : ℤ)
    (hhist : 3 ≤ info.ev_totals.length)
    (hdates : info.dates.max? = some latest)
    (hhor : 1 ≤ horizon) :
    ∃ r : ForecastResult,
      generate_forecast countyName (some info) (some ce) (some m) bm mtn now
          horizon = Except.ok r ∧
      r.predicted_values.length = horizon ∧
      r.prediction_dates.length = horizon ∧
      r.prediction_dates
        = (List.range horizon).map (fun k => latest + 30 * ((k + 1 : ℕ) : ℤ)) ∧
      List.Chain' (fun a b => b = a + 30) r.prediction_dates ∧
      List.Chain' (fun a b => a < b) r.prediction_dates := by
  have he : info.ev_totals ≠ [] := by
    intro h
    rw [h] at hhist
    simp at hhist
  obtain ⟨r, hr, hv, hdts⟩ :=
    generate_forecast_ok_fields countyName info ce m bm mtn now horizon latest
      hdates he
  obtain ⟨hlen, hdf⟩ := runSteps_count_dates m ce bm info.ev_totals latest
    horizon 1
    { predictions := [], prediction_dates := [], current_ev_totals := info.ev_totals }
  have hfun : (fun i : ℕ => latest + 30 * ((1 + i : ℕ) : ℤ))
      = fun k : ℕ => latest + 30 * ((k + 1 : ℕ) : ℤ) := by
    funext k
    rw [Nat.add_comm]
  have hdform : r.prediction_dates
      = (List.range horizon).map (fun k => latest + 30 * ((k + 1 : ℕ) : ℤ)) := by
    rw [hdts]
    unfold runForecastLoop
    rw [hdf]
    rw [List.nil_append, hfun]
  refine ⟨r, hr, ?_, ?_, hdform, ?_, ?_⟩
  · rw [hv]
    unfold runForecastLoop
    rw [hlen]
    simp
  · rw [hdform]
    simp
  · rw [hdform, List.chain'_iff_get]
    intro i hi
    simp only [List.get_map, List.get_range]
    push_cast
    ring
  · rw [hdform, List.chain'_iff_get]
    intro i hi
    simp only [List.get_map, List.get_range]
    push_cast
    omega

/-- Witness for C1: a concrete county with three history points, a constant
regressor and horizon 2. -/
theorem claim_C1_witness :
    ∃ r : ForecastResult,
      generate_forecast "King" (some ⟨"WA", [0, 30, 60], [1000, 1050, 1100]⟩)
          (some 7) (some (fun _ => some 1150)) 0 "RF" 5 2 = Except.ok r ∧
      r.predicted_values.length = 2 ∧
      r.prediction_dates.length = 2 ∧
      r.prediction_dates
        = (List.range 2).map (fun k => 60 + 30 * ((k + 1 : ℕ) : ℤ)) ∧
      List.Chain' (fun a b => b = a + 30) r.prediction_dates ∧
      List.Chain' (fun a b => a < b) r.prediction_dates :=
  claim_C1 "King" ⟨"WA", [0, 30, 60], [1000, 1050, 1100]⟩ 7
    (fun _ => some 1150) 0 "RF" 5 2 60 (by decide) (by decide) (by decide)

/-!
## Claim C2
-/

/-- Fallback with no prior prediction: extend the last historical value by
one percent. -/
theorem fallbackStep_of_first (hist : List ℚ) (latest : ℤ) (m : ℕ)
    (st : LoopState) (h : st.predictions.getLast? = none) :
    fallbackStep hist latest m st
      = { st with
          predictions := st.predictions ++ [nthFromEnd hist 1 * 1.01]
          prediction_dates := st.prediction_dates ++ [latest + 30 * (m : ℤ)] } := by
  unfold fallbackStep
  rw [h]

/-- Fallback with a prior prediction `prev`: extend it by two percent. -/
theorem fallbackStep_of_later (hist : List ℚ) (latest : ℤ) (m : ℕ)
    (st : LoopState) (prev : ℚ) (h : st.predictions.getLast? = some prev) :
    fallbackStep hist latest m st
      = { st with
          predictions := st.predictions ++ [prev * 1.02]
          prediction_dates := st.prediction_dates ++ [latest + 30 * (m : ℤ)] } := by
  unfold fallbackStep
  rw [h]

/-- When the historical series is shorter than 3 points, every iteration of
the loop takes the fallback path (the working series never grows, because the
fallback handler does not append to it), producing the geometric sequence
`last_hist * 1.01 * 1.02 ^ k`. -/
theorem runSteps_all_fallback (model : Model) (ce bm : ℚ) (hist : List ℚ)
    (latest : ℤ) (hlen : hist.length < 3) :
    ∀ (n m j : ℕ) (st : LoopState),
      st.current_ev_totals = hist →
      st.predictions
        = (List.range j).map (fun k => nthFromEnd hist 1 * 1.01 * 1.02 ^ k) →
      (runSteps model ce bm hist latest n m st).predictions
        = (List.range (j + n)).map
            (fun k => nthFromEnd hist 1 * 1.01 * 1.02 ^ k) := by
  intro n
  induction n with
  | zero =>
      intro m j st _ hp
      rw [runSteps_zero, hp, Nat.add_zero]
  | succ n ih =>
      intro m j st hc hp
      rw [runSteps_succ]
      have hshort : st.current_ev_totals.length < 3 := by rw [hc]; exact hlen
      rw [forecastStep_of_short model ce bm hist latest m st hshort]
      have hnext : (fallbackStep hist latest m st).predictions
          = (List.range (j + 1)).map
              (fun k => nthFromEnd hist 1 * 1.01 * 1.02 ^ k) := by
        cases j with
        | zero =>
            have hnone : st.predictions.getLast? = none := by rw [hp]; rfl
            rw [fallbackStep_of_first hist latest m st hnone, hp]
            rw [List.range_succ, List.range_zero]
            norm_num
        | succ k =>
            have hsome : st.predictions.getLast?
                = some (nthFromEnd hist 1 * 1.01 * 1.02 ^ k) := by
              rw [hp, List.range_succ, List.map_append]
              exact List.getLast?_concat _
            have hval : nthFromEnd hist 1 * 1.01 * 1.02 ^ k * 1.02
                = nthFromEnd hist 1 * 1.01 * 1.02 ^ (k + 1) := by ring
            rw [fallbackStep_of_later hist latest m st _ hsome, hp]
            show (List.range (k + 1)).map _ ++ [_]
              = (List.range (k + 1 + 1)).map _
            rw [hval, List.range_succ (k + 1), List.map_append]
            simp
      have hcur : (fallbackStep hist latest m st).current_ev_totals = hist := hc
      have := ih (m + 1) (j + 1) (fallbackStep hist latest m st) hcur hnext
      rw [this]
      congr 2
      omega

/-- C2 counterexample: a county whose history has exactly 2 points does NOT
fail with an insufficient-data error: the call succeeds, and the precondition
violation is converted into per-step fallback predictions
(`110 * 1.01 = 111.1`, then `111.1 * 1.02 = 113.322`). -/
theorem claim_C2_counterexample :
    (generate_forecast "King" (some ⟨"WA", [0, 30], [100, 110]⟩) (some 7)
        (some (fun _ => some 999)) 0 "RF" 5 2).isOk = true ∧
    okPredictedValues (generate_forecast "King" (some ⟨"WA", [0, 30], [100, 110]⟩)
        (some 7) (some (fun _ => some 999)) 0 "RF" 5 2) = [111.1, 113.322] := by
  constructor
  · rfl
  · obtain ⟨r, hr, hv, _⟩ :=
      generate_forecast_ok_fields "King" ⟨"WA", [0, 30], [100, 110]⟩ 7
        (fun _ => some 999) 0 "RF" 5 2 30 (by decide) (by simp)
    rw [hr]
    show r.predicted_values = _
    rw [hv]
    unfold runForecastLoop
    rw [runSteps_all_fallback (fun _ => some 999) 7 0 [100, 110] 30 (by decide)
      2 1 0 _ rfl (by simp)]
    norm_num [nthFromEnd, List.range_succ]

/-- C2 amended: `generate_forecast` performs no history-length precondition
check (that check lives in `prepare_model_input`, which it does not call).
With a nonempty history of fewer than 3 points the request succeeds: every
step raises insufficient-data internally, is caught by the per-step handler,
and the result is the full-length fallback forecast
`last_hist * 1.01 * 1.02 ^ k` for step `k + 1`. -/
theorem claim_C2 (countyName : String) (info : CountyInfo) (ce : ℚ)
    (m : Model) (bm : ℚ) (mtn : String) (now : ℤ) (horizon : ℕ) (latest : ℤ)
    (hshort : info.ev_totals.length < 3) (hne : info.ev_totals ≠ [])
    (hdates : info.dates.max? = some latest) :
    ∃ r : ForecastResult,
      generate_forecast countyName (some info) (some ce) (some m) bm mtn now
          horizon = Except.ok r ∧
      r.predicted_values
        = (List.range horizon).map
            (fun k => nthFromEnd info.ev_totals 1 * 1.01 * 1.02 ^ k) := by
  obtain ⟨r, hr, hv, _⟩ :=
    generate_forecast_ok_fields countyName info ce m bm mtn now horizon latest
      hdates hne
  refine ⟨r, hr, ?_⟩
  rw [hv]
  unfold runForecastLoop
  have := runSteps_all_fallback m ce bm info.ev_totals latest hshort horizon 1 0
    { predictions := [], prediction_dates := [], current_ev_totals := info.ev_totals }
    rfl (by simp)
  simpa using this

/-- Witness for C2 at the 2-point history of the counterexample. -/
theorem claim_C2_witness :
    ∃ r : ForecastResult,
      generate_forecast "King" (some ⟨"WA", [0, 30], [100, 110]⟩) (some 7)
          (some (fun _ => some 999)) 0 "RF" 5 2 = Except.ok r ∧
      r.predicted_values
        = (List.range 2).map
            (fun k => nthFromEnd [100, 110] 1 * 1.01 * 1.02 ^ k) :=
  claim_C2 "King" ⟨"WA", [0, 30], [100, 110]⟩ 7 (fun _ => some 999) 0 "RF" 5 2
    30 (by decide) (by decide) (by decide)

/-!
## Claims C3 and C4
-/

/-- C3: the first-step stability clamp (the accepted value of the clamp
stage, lines 1294-1301; the separate hard positivity floor of line 1320 is
the subject of C5): a raw prediction below `0.7 * cur` is clamped to
`0.95 * cur`, else one above `1.5 * cur` is clamped to `1.1 * cur`, else the
raw prediction is accepted as is.  End to end, with last historical value
`100`, a raw prediction of `50` is recorded as `95` and a raw prediction of
`200` as `110`. -/
theorem claim_C3 :
    (∀ cur raw : ℚ,
      (raw < 0.7 * cur → firstStepGuard cur raw = 0.95 * cur) ∧
      (¬ raw < 0.7 * cur → raw > 1.5 * cur → firstStepGuard cur raw = 1.1 * cur) ∧
      (¬ raw < 0.7 * cur → ¬ raw > 1.5 * cur → firstStepGuard cur raw = raw)) ∧
    okPredictedValues (generate_forecast "King"
        (some ⟨"WA", [0, 30, 60], [90, 95, 100]⟩) (some 7)
        (some (fun _ => some 50)) 0 "RF" 5 1) = [95] ∧
    okPredictedValues (generate_forecast "King"
        (some ⟨"WA", [0, 30, 60], [90, 95, 100]⟩) (some 7)
        (some (fun _ => some 200)) 0 "RF" 5 1) = [110] := by
  refine ⟨?_, ?_, ?_⟩
  · intro cur raw
    unfold firstStepGuard
    refine ⟨?_, ?_, ?_⟩
    · intro h
      rw [if_pos (show raw < cur * 0.7 by rw [mul_comm]; exact h)]
      ring
    · intro h1 h2
      rw [if_neg (show ¬ raw < cur * 0.7 by rw [mul_comm]; exact h1),
        if_pos (show raw > cur * 1.5 by rw [mul_comm]; exact h2)]
      ring
    · intro h1 h2
      rw [if_neg (show ¬ raw < cur * 0.7 by rw [mul_comm]; exact h1),
        if_neg (show ¬ raw > cur * 1.5 by rw [mul_comm]; exact h2)]
  · obtain ⟨r, hr, hv, _⟩ :=
      generate_forecast_ok_fields "King" ⟨"WA", [0, 30, 60], [90, 95, 100]⟩ 7
        (fun _ => some 50) 0 "RF" 5 1 60 (by decide) (by simp)
    rw [hr]
    show r.predicted_values = _
    rw [hv]
    unfold runForecastLoop
    rw [runSteps_succ, runSteps_zero,
      forecastStep_of_pred_first (fun _ => some 50) 7 0 [90, 95, 100] 60 1
        ⟨[], [], [90, 95, 100]⟩ 50 (by norm_num) rfl rfl]
    norm_num [firstStepGuard, nthFromEnd, max_def]
  · obtain ⟨r, hr, hv, _⟩ :=
      generate_forecast_ok_fields "King" ⟨"WA", [0, 30, 60], [90, 95, 100]⟩ 7
        (fun _ => some 200) 0 "RF" 5 1 60 (by decide) (by simp)
    rw [hr]
    show r.predicted_values = _
    rw [hv]
    unfold runForecastLoop
    rw [runSteps_succ, runSteps_zero,
      forecastStep_of_pred_first (fun _ => some 200) 7 0 [90, 95, 100] 60 1
        ⟨[], [], [90, 95, 100]⟩ 200 (by norm_num) rfl rfl]
    norm_num [firstStepGuard, nthFromEnd, max_def]

/-- Witness for C3: the clamp applied at `cur = 100` with `raw = 50` and
`raw = 200`. -/
theorem claim_C3_witness :
    firstStepGuard 100 50 = 0.95 * 100 ∧ firstStepGuard 100 200 = 1.1 * 100 :=
  ⟨(claim_C3.1 100 50).1 (by norm_num),
   (claim_C3.1 100 200).2.1 (by norm_num) (by norm_num)⟩

/-- C4: the subsequent-step stability clamp (lines 1302-1311): a raw
prediction below `0.8 * prev` is clamped to `0.98 * prev`, else one above
`1.3 * prev` is clamped to `1.05 * prev`, else kept; afterwards the floor
`max (clamped, prev * 1.01)` (lines 1312-1316) and the hard floor `max 0.1`
are applied, so every non-fallback step with a previous accepted prediction
`prev` records a value at least `prev * 1.01`. -/
theorem claim_C4 :
    (∀ prev raw : ℚ,
      (raw < 0.8 * prev → laterStepGuard prev raw = 0.98 * prev) ∧
      (¬ raw < 0.8 * prev → raw > 1.3 * prev → laterStepGuard prev raw = 1.05 * prev) ∧
      (¬ raw < 0.8 * prev → ¬ raw > 1.3 * prev → laterStepGuard prev raw = raw)) ∧
    (∀ (model : Model) (ce bm : ℚ) (hist : List ℚ) (latest : ℤ) (m : ℕ)
        (st : LoopState) (raw prev : ℚ),
      st.predictions.getLast? = some prev →
      3 ≤ st.current_ev_totals.length →
      model (loopFeatures (bm + (m : ℚ)) ce st.current_ev_totals) = some raw →
      (forecastStep model ce bm hist latest m st).predictions
        = st.predictions ++ [max 0.1 (max (laterStepGuard prev raw) (prev * 1.01))] ∧
      prev * 1.01 ≤ max 0.1 (max (laterStepGuard prev raw) (prev * 1.01))) := by
  constructor
  · intro prev raw
    unfold laterStepGuard
    refine ⟨?_, ?_, ?_⟩
    · intro h
      rw [if_pos (show raw < prev * 0.8 by rw [mul_comm]; exact h)]
      ring
    · intro h1 h2
      rw [if_neg (show ¬ raw < prev * 0.8 by rw [mul_comm]; exact h1),
        if_pos (show raw > prev * 1.3 by rw [mul_comm]; exact h2)]
      ring
    · intro h1 h2
      rw [if_neg (show ¬ raw < prev * 0.8 by rw [mul_comm]; exact h1),
        if_neg (show ¬ raw > prev * 1.3 by rw [mul_comm]; exact h2)]
  · intro model ce bm hist latest m st raw prev hprev hlen hmodel
    constructor
    · rw [forecastStep_of_pred_later model ce bm hist latest m st raw prev hlen
        hmodel hprev]
    · exact le_trans (le_max_right _ _) (le_max_right _ _)

/-- Witness for C4: the clamp at `prev = 100`, `raw = 50`, and a concrete
non-fallback step with previous prediction `100` and raw prediction `120`. -/
theorem claim_C4_witness :
    laterStepGuard 100 50 = 0.98 * 100 ∧
    (forecastStep (fun _ => some 120) 7 0 [1, 2, 3] 0 2
        ⟨[100], [30], [1, 2, 3]⟩).predictions
      = [100] ++ [max 0.1 (max (laterStepGuard 100 120) (100 * 1.01))] ∧
    (100 : ℚ) * 1.01 ≤ max 0.1 (max (laterStepGuard 100 120) (100 * 1.01)) :=
  ⟨(claim_C4.1 100 50).1 (by norm_num),
   (claim_C4.2 (fun _ => some 120) 7 0 [1, 2, 3] 0 2 ⟨[100], [30], [1, 2, 3]⟩
      120 100 rfl (by norm_num) rfl).1,
   (claim_C4.2 (fun _ => some 120) 7 0 [1, 2, 3] 0 2 ⟨[100], [30], [1, 2, 3]⟩
      120 100 rfl (by norm_num) rfl).2⟩

/-!
## Growth invariant of the prediction list (used by C5 and C10)
-/

/-- Helper: the last element of a list is a member. -/
theorem mem_of_getLast_eq_some (l : List ℚ) (a : ℚ) (h : l.getLast? = some a) :
    a ∈ l := by
  obtain ⟨hne, hx⟩ := List.mem_getLast?_eq_getLast (Option.mem_def.mpr h)
  rw [hx]
  exact List.getLast_mem hne

/-- Helper: appending one positive value that is at least `1.01` times the
previous last value preserves positivity and the growth chain. -/
theorem append_growth (l : List ℚ) (v : ℚ)
    (hpos : ∀ p ∈ l, 0 < p)
    (hchain : List.Chain' (fun a b => a * 1.01 ≤ b) l)
    (hv : 0 < v)
    (hlast : ∀ x, l.getLast? = some x → x * 1.01 ≤ v) :
    (∀ p ∈ l ++ [v], 0 < p) ∧
    List.Chain' (fun a b => a * 1.01 ≤ b) (l ++ [v]) := by
  constructor
  · intro p hp
    rcases List.mem_append.mp hp with h | h
    · exact hpos p h
    · rw [List.mem_singleton.mp h]
      exact hv
  · rw [List.chain'_append]
    refine ⟨hchain, List.chain'_singleton v, ?_⟩
    intro x hx y hy
    have hyv : v = y := by simpa using hy
    rw [← hyv]
    exact hlast x (Option.mem_def.mp hx)

/-- The fallback handler preserves positivity and the growth chain of the
prediction list when the last historical value is positive. -/
theorem fallbackStep_growth (hist : List ℚ) (latest : ℤ) (m : ℕ)
    (st : LoopState) (hhist : 0 < nthFromEnd hist 1)
    (hpos : ∀ p ∈ st.predictions, 0 < p)
    (hchain : List.Chain' (fun a b => a * 1.01 ≤ b) st.predictions) :
    (∀ p ∈ (fallbackStep hist latest m st).predictions, 0 < p) ∧
    List.Chain' (fun a b => a * 1.01 ≤ b)
      (fallbackStep hist latest m st).predictions := by
  rcases hl : st.predictions.getLast? with _ | prev
  · rw [fallbackStep_of_first hist latest m st hl]
    apply append_growth st.predictions _ hpos hchain
    · exact mul_pos hhist (by norm_num)
    · intro x hx
      rw [hl] at hx
      cases hx
  · have hprev : 0 < prev := hpos prev (mem_of_getLast_eq_some _ _ hl)
    rw [fallbackStep_of_later hist latest m st prev hl]
    apply append_growth st.predictions _ hpos hchain
    · exact mul_pos hprev (by norm_num)
    · intro x hx
      rw [hl] at hx
      injection hx with hx
      rw [hx] at hprev ⊢
      nlinarith

/-- One loop iteration preserves positivity and the growth chain of the
prediction list when the last historical value is positive. -/
theorem forecastStep_growth (model : Model) (ce bm : ℚ) (hist : List ℚ)
    (latest : ℤ) (m : ℕ) (st : LoopState)
    (hhist : 0 < nthFromEnd hist 1)
    (hpos : ∀ p ∈ st.predictions, 0 < p)
    (hchain : List.Chain' (fun a b => a * 1.01 ≤ b) st.predictions) :
    (∀ p ∈ (forecastStep model ce bm hist latest m st).predictions, 0 < p) ∧
    List.Chain' (fun a b => a * 1.01 ≤ b)
      (forecastStep model ce bm hist latest m st).predictions := by
  by_cases hlen : 3 ≤ st.current_ev_totals.length
  · rcases hm : model (loopFeatures (bm + (m : ℚ)) ce st.current_ev_totals)
      with _ | raw
    · rw [forecastStep_of_none model ce bm hist latest m st hm]
      exact fallbackStep_growth hist latest m st hhist hpos hchain
    · rcases hl : st.predictions.getLast? with _ | prev
      · rw [forecastStep_of_pred_first model ce bm hist latest m st raw hlen hm hl]
        apply append_growth st.predictions _ hpos hchain
        · exact lt_of_lt_of_le (by norm_num) (le_max_left _ _)
        · intro x hx
          rw [hl] at hx
          cases hx
      · rw [forecastStep_of_pred_later model ce bm hist latest m st raw prev hlen hm hl]
        apply append_growth st.predictions _ hpos hchain
        · exact lt_of_lt_of_le (by norm_num) (le_max_left _ _)
        · intro x hx
          rw [hl] at hx
          injection hx with hx
          rw [hx]
          exact le_trans (le_max_right _ _) (le_max_right _ _)
  · rw [forecastStep_of_short model ce bm hist latest m st (by omega)]
    exact fallbackStep_growth hist latest m st hhist hpos hchain

/-- The whole loop preserves positivity and the growth chain. -/
theorem runSteps_growth (model : Model) (ce bm : ℚ) (hist : List ℚ)
    (latest : ℤ) (hhist : 0 < nthFromEnd hist 1) :
    ∀ (n m : ℕ) (st : LoopState),
      (∀ p ∈ st.predictions, 0 < p) →
      List.Chain' (fun a b => a * 1.01 ≤ b) st.predictions →
      (∀ p ∈ (runSteps model ce bm hist latest n m st).predictions, 0 < p) ∧
      List.Chain' (fun a b => a * 1.01 ≤ b)
        (runSteps model ce bm hist latest n m st).predictions := by
  intro n
  induction n with
  | zero =>
      intro m st hpos hchain
      rw [runSteps_zero]
      exact ⟨hpos, hchain⟩
  | succ n ih =>
      intro m st hpos hchain
      rw [runSteps_succ]
      obtain ⟨hpos1, hchain1⟩ :=
        forecastStep_growth model ce bm hist latest m st hhist hpos hchain
      exact ih (m + 1) _ hpos1 hchain1

/-- A positive list whose consecutive elements grow by at least a factor
`1.01` is strictly increasing. -/
theorem growth_chain_lt (l : List ℚ) (hpos : ∀ p ∈ l, 0 < p)
    (hchain : List.Chain' (fun a b => a * 1.01 ≤ b) l) :
    List.Chain' (fun a b => a < b) l := by
  rw [List.chain'_iff_get] at hchain ⊢
  intro i hi
  have h := hchain i hi
  have hp := hpos (l.get ⟨i, by omega⟩) (List.get_mem l i (by omega))
  nlinarith

/-!
## Claim C5
-/

/-- C5 counterexample: the hard floor `max(0.1, prediction)` sits on the
non-fallback path only.  With history `[0, 0, 0]` (non-negative values) and a
regressor that raises, the single step takes the fallback and records
`0 * 1.01 = 0`, which is not strictly positive. -/
theorem claim_C5_counterexample :
    okPredictedValues (generate_forecast "King" (some ⟨"WA", [0, 30, 60], [0, 0, 0]⟩)
        (some 7) (some (fun _ => none)) 0 "RF" 5 1) = [0] ∧
    ¬ (∀ v ∈ okPredictedValues (generate_forecast "King"
        (some ⟨"WA", [0, 30, 60], [0, 0, 0]⟩)
        (some 7) (some (fun _ => none)) 0 "RF" 5 1), 0 < v) := by
  have hval : okPredictedValues (generate_forecast "King"
      (some ⟨"WA", [0, 30, 60], [0, 0, 0]⟩)
      (some 7) (some (fun _ => none)) 0 "RF" 5 1) = [0] := by
    obtain ⟨r, hr, hv, _⟩ :=
      generate_forecast_ok_fields "King" ⟨"WA", [0, 30, 60], [0, 0, 0]⟩ 7
        (fun _ => none) 0 "RF" 5 1 60 (by decide) (by simp)
    rw [hr]
    show r.predicted_values = _
    rw [hv]
    unfold runForecastLoop
    rw [runSteps_succ, runSteps_zero,
      forecastStep_of_none (fun _ => none) 7 0 [0, 0, 0] 60 1
        ⟨[], [], [0, 0, 0]⟩ rfl,
      fallbackStep_of_first [0, 0, 0] 60 1 ⟨[], [], [0, 0, 0]⟩ rfl]
    norm_num [nthFromEnd]
  refine ⟨hval, fun hall => ?_⟩
  have h0 := hall 0 (by rw [hval]; exact List.mem_singleton.mpr rfl)
  exact lt_irrefl 0 h0

/-- C5 amended: the hard floor `max(0.1, prediction)` guarantees that every
NON-fallback accepted value is at least `0.1` (hence strictly positive); and
whenever the last historical value is strictly positive, every recorded
prediction, fallback steps included, is strictly positive.  A fallback step
applies no hard floor, so with a zero last historical value a fallback chain
records `0` (see the counterexample). -/
theorem claim_C5 :
    (∀ (model : Model) (ce bm : ℚ) (hist : List ℚ) (latest : ℤ) (m : ℕ)
        (st : LoopState) (raw : ℚ),
      3 ≤ st.current_ev_totals.length →
      model (loopFeatures (bm + (m : ℚ)) ce st.current_ev_totals) = some raw →
      ∃ p : ℚ, (forecastStep model ce bm hist latest m st).predictions
          = st.predictions ++ [p] ∧ 0.1 ≤ p) ∧
    (∀ (countyName : String) (info : CountyInfo) (ce : ℚ) (m : Model)
        (bm : ℚ) (mtn : String) (now : ℤ) (horizon : ℕ) (latest : ℤ),
      info.dates.max? = some latest →
      0 < nthFromEnd info.ev_totals 1 →
      ∃ r : ForecastResult,
        generate_forecast countyName (some info) (some ce) (some m) bm mtn now
            horizon = Except.ok r ∧
        ∀ v ∈ r.predicted_values, 0 < v) := by
  constructor
  · intro model ce bm hist latest m st raw hlen hmodel
    rcases hl : st.predictions.getLast? with _ | prev
    · exact ⟨_, congrArg LoopState.predictions
        (forecastStep_of_pred_first model ce bm hist latest m st raw hlen hmodel hl),
        le_max_left _ _⟩
    · exact ⟨_, congrArg LoopState.predictions
        (forecastStep_of_pred_later model ce bm hist latest m st raw prev hlen hmodel hl),
        le_max_left _ _⟩
  · intro countyName info ce m bm mtn now horizon latest hdates hpos
    have hne : info.ev_totals ≠ [] := by
      intro h
      rw [h] at hpos
      norm_num [nthFromEnd] at hpos
    obtain ⟨r, hr, hv, _⟩ :=
      generate_forecast_ok_fields countyName info ce m bm mtn now horizon latest
        hdates hne
    obtain ⟨hp, _⟩ := runSteps_growth m ce bm info.ev_totals latest hpos horizon 1
      { predictions := [], prediction_dates := [], current_ev_totals := info.ev_totals }
      (by simp) (by simp)
    refine ⟨r, hr, ?_⟩
    rw [hv]
    exact hp

/-- Witness for C5: a concrete non-fallback step, and a concrete forecast
with positive history. -/
theorem claim_C5_witness :
    (∃ p : ℚ, (forecastStep (fun _ => some 50) 7 0 [90, 95, 100] 60 1
        ⟨[], [], [90, 95, 100]⟩).predictions = [] ++ [p] ∧ 0.1 ≤ p) ∧
    (∃ r : ForecastResult,
      generate_forecast "King" (some ⟨"WA", [0, 30, 60], [1000, 1050, 1100]⟩)
          (some 7) (some (fun _ => some 1150)) 0 "RF" 5 2 = Except.ok r ∧
      ∀ v ∈ r.predicted_values, 0 < v) :=
  ⟨claim_C5.1 (fun _ => some 50) 7 0 [90, 95, 100] 60 1
      ⟨[], [], [90, 95, 100]⟩ 50 (by norm_num) rfl,
   claim_C5.2 "King" ⟨"WA", [0, 30, 60], [1000, 1050, 1100]⟩ 7
      (fun _ => some 1150) 0 "RF" 5 2 60 (by decide)
      (by norm_num [nthFromEnd])⟩

/-!
## Claim C10
-/

/-- C10: whenever the last historical value is strictly positive, the full
sequence of predicted values is strictly increasing across all steps,
fallback steps included: every value is positive and each consecutive pair
satisfies `predictions[k] * 1.01 <= predictions[k+1]`, hence
`predictions[k] < predictions[k+1]` (a first-step fallback yields
`last_hist * 1.01 > 0`, a later fallback `prev * 1.02 >= prev * 1.01`, and a
non-fallback step at least `prev * 1.01` by the growth floor). -/
theorem claim_C10 (countyName : String) (info : CountyInfo) (ce : ℚ)
    (m : Model) (bm : ℚ) (mtn : String) (now : ℤ) (horizon : ℕ) (latest : ℤ)
    (hdates : info.dates.max? = some latest)
    (hpos : 0 < nthFromEnd info.ev_totals 1) :
    ∃ r : ForecastResult,
      generate_forecast countyName (some info) (some ce) (some m) bm mtn now
          horizon = Except.ok r ∧
      (∀ v ∈ r.predicted_values, 0 < v) ∧
      List.Chain' (fun a b => a * 1.01 ≤ b) r.predicted_values ∧
      List.Chain' (fun a b => a < b) r.predicted_values := by
  have hne : info.ev_totals ≠ [] := by
    intro h
    rw [h] at hpos
    norm_num [nthFromEnd] at hpos
  obtain ⟨r, hr, hv, _⟩ :=
    generate_forecast_ok_fields countyName info ce m bm mtn now horizon latest
      hdates hne
  obtain ⟨hp, hc⟩ := runSteps_growth m ce bm info.ev_totals latest hpos horizon 1
    { predictions := [], prediction_dates := [], current_ev_totals := info.ev_totals }
    (by simp) (by simp)
  refine ⟨r, hr, ?_, ?_, ?_⟩
  · rw [hv]; exact hp
  · rw [hv]; exact hc
  · rw [hv]; exact growth_chain_lt _ hp hc

/-- Witness for C10: a concrete forecast with positive history and a
regressor that raises at every step (all-fallback path). -/
theorem claim_C10_witness :
    ∃ r : ForecastResult,
      generate_forecast "King" (some ⟨"WA", [0, 30, 60], [100, 110, 121]⟩)
          (some 7) (some (fun _ => none)) 0 "RF" 5 3 = Except.ok r ∧
      (∀ v ∈ r.predicted_values, 0 < v) ∧
      List.Chain' (fun a b => a * 1.01 ≤ b) r.predicted_values ∧
      List.Chain' (fun a b => a < b) r.predicted_values :=
  claim_C10 "King" ⟨"WA", [0, 30, 60], [100, 110, 121]⟩ 7 (fun _ => none) 0
    "RF" 5 3 60 (by decide) (by norm_num [nthFromEnd])

/-!
## Claim C6
-/

/-- C6 counterexample: the fallback handler does not append its accepted
value to the working series.  With a regressor that raises, one step records
the fallback prediction `121 * 1.01 = 122.21` but leaves the working series
at the original history, so the working series is NOT the history followed by
all previously accepted predictions. -/
theorem claim_C6_counterexample :
    (runForecastLoop (fun _ => none) 7 0 [100, 110, 121] 100 1).predictions
      = [122.21] ∧
    (runForecastLoop (fun _ => none) 7 0 [100, 110, 121] 100 1).current_ev_totals
      = [100, 110, 121] ∧
    (runForecastLoop (fun _ => none) 7 0 [100, 110, 121] 100 1).current_ev_totals
      ≠ [100, 110, 121]
        ++ (runForecastLoop (fun _ => none) 7 0 [100, 110, 121] 100 1).predictions := by
  have h : runForecastLoop (fun _ => none) 7 0 [100, 110, 121] 100 1
      = ⟨[nthFromEnd [100, 110, 121] 1 * 1.01], [100 + 30 * ((1 : ℕ) : ℤ)],
          [100, 110, 121]⟩ := by
    unfold runForecastLoop
    rw [runSteps_succ, runSteps_zero,
      forecastStep_of_none (fun _ => none) 7 0 [100, 110, 121] 100 1
        ⟨[], [], [100, 110, 121]⟩ rfl,
      fallbackStep_of_first [100, 110, 121] 100 1 ⟨[], [], [100, 110, 121]⟩ rfl]
    simp
  refine ⟨?_, ?_, ?_⟩
  · rw [h]
    norm_num [nthFromEnd]
  · rw [h]
  · rw [h]
    simp

/-- C6 amended: only NON-fallback accepted values are appended to the working
series before the next step: a non-fallback step appends its accepted value
to both `predictions` and `current_ev_totals`, while a fallback step records
its value in `predictions` (and its date) but leaves the working series
unchanged, so later features are engineered from the history plus the
non-fallback predictions only. -/
theorem claim_C6 (model : Model) (ce bm : ℚ) (hist : List ℚ) (latest : ℤ)
    (m : ℕ) (st : LoopState) :
    (∀ raw : ℚ,
      3 ≤ st.current_ev_totals.length →
      model (loopFeatures (bm + (m : ℚ)) ce st.current_ev_totals) = some raw →
      ∃ p : ℚ,
        (forecastStep model ce bm hist latest m st).predictions
          = st.predictions ++ [p] ∧
        (forecastStep model ce bm hist latest m st).current_ev_totals
          = st.current_ev_totals ++ [p]) ∧
    (model (loopFeatures (bm + (m : ℚ)) ce st.current_ev_totals) = none ∨
        st.current_ev_totals.length < 3 →
      (forecastStep model ce bm hist latest m st).current_ev_totals
        = st.current_ev_totals ∧
      ∃ p : ℚ, (forecastStep model ce bm hist latest m st).predictions
          = st.predictions ++ [p]) := by
  constructor
  · intro raw hlen hmodel
    rcases hl : st.predictions.getLast? with _ | prev
    · rw [forecastStep_of_pred_first model ce bm hist latest m st raw hlen hmodel hl]
      exact ⟨_, rfl, rfl⟩
    · rw [forecastStep_of_pred_later model ce bm hist latest m st raw prev hlen hmodel hl]
      exact ⟨_, rfl, rfl⟩
  · intro hfb
    have hstep : forecastStep model ce bm hist latest m st
        = fallbackStep hist latest m st := by
      rcases hfb with hm | hs
      · exact forecastStep_of_none model ce bm hist latest m st hm
      · exact forecastStep_of_short model ce bm hist latest m st hs
    rw [hstep]
    unfold fallbackStep
    exact ⟨rfl, _, rfl⟩

/-- Witness for C6: a concrete non-fallback step appends to the working
series, a concrete fallback step leaves it unchanged. -/
theorem claim_C6_witness :
    (∃ p : ℚ,
      (forecastStep (fun _ => some 130) 7 0 [100, 110, 121] 100 1
        ⟨[], [], [100, 110, 121]⟩).predictions = [] ++ [p] ∧
      (forecastStep (fun _ => some 130) 7 0 [100, 110, 121] 100 1
        ⟨[], [], [100, 110, 121]⟩).current_ev_totals = [100, 110, 121] ++ [p]) ∧
    ((forecastStep (fun _ => none) 7 0 [100, 110, 121] 100 1
        ⟨[], [], [100, 110, 121]⟩).current_ev_totals = [100, 110, 121] ∧
      ∃ p : ℚ, (forecastStep (fun _ => none) 7 0 [100, 110, 121] 100 1
        ⟨[], [], [100, 110, 121]⟩).predictions = [] ++ [p]) :=
  ⟨(claim_C6 (fun _ => some 130) 7 0 [100, 110, 121] 100 1
      ⟨[], [], [100, 110, 121]⟩).1 130 (by norm_num) rfl,
   (claim_C6 (fun _ => none) 7 0 [100, 110, 121] 100 1
      ⟨[], [], [100, 110, 121]⟩).2 (Or.inl rfl)⟩

/-!
## Claim C7
-/

/-- C7: for every series of length at least 3, feature engineering succeeds
and the percentage-change features are the guarded quotients of the spec:
`value_pct_change_1 = (v[n-1] - v[n-2]) / v[n-2]` when `v[n-2]` is nonzero
and `0` otherwise, and `value_pct_change_3 = (v[n-1] - v[n-4]) / v[n-4]` when
`n >= 4` and `v[n-4]` is nonzero and `0` otherwise; no division is performed
when the guard fails.  The inline re-computation inside the forecast loop
produces the same two features. -/
theorem claim_C7 (l : List ℚ) (h3 : 3 ≤ l.length) :
    ∃ fv : FeatureValues,
      calculate_feature_engineering_values l = Except.ok fv ∧
      fv.ev_total_pct_change_1
        = (if l.getD (l.length - 2) 0 ≠ 0
           then (l.getD (l.length - 1) 0 - l.getD (l.length - 2) 0)
             / l.getD (l.length - 2) 0
           else 0) ∧
      fv.ev_total_pct_change_3
        = (if 4 ≤ l.length ∧ l.getD (l.length - 4) 0 ≠ 0
           then (l.getD (l.length - 1) 0 - l.getD (l.length - 4) 0)
             / l.getD (l.length - 4) 0
           else 0) ∧
      (∀ ms ce : ℚ,
        (loopFeatures ms ce l).ev_total_pct_change_1 = fv.ev_total_pct_change_1 ∧
        (loopFeatures ms ce l).ev_total_pct_change_3 = fv.ev_total_pct_change_3) := by
  unfold calculate_feature_engineering_values
  rw [if_neg (by omega)]
  refine ⟨_, rfl, ?_, ?_, fun ms ce => ⟨rfl, rfl⟩⟩
  · show pctChange1 l = _
    unfold pctChange1 nthFromEnd
    have h2 : 2 ≤ l.length := by omega
    simp [h2]
  · show pctChange3 l = _
    unfold pctChange3 nthFromEnd
    rfl

/-- Witness for C7 on the series `[1, 2, 4]`. -/
theorem claim_C7_witness :
    ∃ fv : FeatureValues,
      calculate_feature_engineering_values [1, 2, 4] = Except.ok fv ∧
      fv.ev_total_pct_change_1
        = (if ([1, 2, 4] : List ℚ).getD (([1, 2, 4] : List ℚ).length - 2) 0 ≠ 0
           then (([1, 2, 4] : List ℚ).getD (([1, 2, 4] : List ℚ).length - 1) 0
               - ([1, 2, 4] : List ℚ).getD (([1, 2, 4] : List ℚ).length - 2) 0)
             / ([1, 2, 4] : List ℚ).getD (([1, 2, 4] : List ℚ).length - 2) 0
           else 0) ∧
      fv.ev_total_pct_change_3
        = (if 4 ≤ ([1, 2, 4] : List ℚ).length
              ∧ ([1, 2, 4] : List ℚ).getD (([1, 2, 4] : List ℚ).length - 4) 0 ≠ 0
           then (([1, 2, 4] : List ℚ).getD (([1, 2, 4] : List ℚ).length - 1) 0
               - ([1, 2, 4] : List ℚ).getD (([1, 2, 4] : List ℚ).length - 4) 0)
             / ([1, 2, 4] : List ℚ).getD (([1, 2, 4] : List ℚ).length - 4) 0
           else 0) ∧
      (∀ ms ce : ℚ,
        (loopFeatures ms ce [1, 2, 4]).ev_total_pct_change_1
          = fv.ev_total_pct_change_1 ∧
        (loopFeatures ms ce [1, 2, 4]).ev_total_pct_change_3
          = fv.ev_total_pct_change_3) :=
  claim_C7 [1, 2, 4] (by norm_num)

/-!
## Claim C8
-/

/-- Allocating a fresh list object leaves every existing object unchanged. -/
theorem Heap.get_alloc_of_lt (h : Heap) (v : List ℚ) (r : ℕ)
    (hr : r < h.data.length) : (h.alloc v).2.get r = h.get r := by
  unfold Heap.alloc Heap.get
  exact List.getD_append _ _ _ _ hr

/-- An in-place append at address `s` leaves every other address unchanged. -/
theorem Heap.get_append1_of_ne (h : Heap) (r s : ℕ) (x : ℚ) (hne : s ≠ r) :
    (h.append1 s x).get r = h.get r := by
  unfold Heap.append1 Heap.get
  rw [List.getD_eq_getElem?_getD, List.getElem?_set_ne hne,
    ← List.getD_eq_getElem?_getD]

/-- One heap-level loop iteration touches no list object other than the one
at `curRef`. -/
theorem forecastStepH_frame (model : Model) (ce bm : ℚ) (histRef curRef : ℕ)
    (latest : ℤ) (m : ℕ) (st : HeapLoopState) (r : ℕ) (hne : curRef ≠ r) :
    ((forecastStepH model ce bm histRef curRef latest m st).heap).get r
      = st.heap.get r := by
  unfold forecastStepH fallbackStepH
  by_cases hlen : 3 ≤ (st.heap.get curRef).length
  · simp only [if_pos hlen]
    rcases hm : model (loopFeatures (bm + (m : ℚ)) ce (st.heap.get curRef))
      with _ | raw
    · simp only [hm]
    · simp only [hm]
      exact Heap.get_append1_of_ne st.heap r curRef _ hne
  · simp only [if_neg hlen]

/-- The heap-level loop touches no list object other than the one at
`curRef`. -/
theorem runStepsH_frame (model : Model) (ce bm : ℚ) (histRef curRef : ℕ)
    (latest : ℤ) (r : ℕ) (hne : curRef ≠ r) :
    ∀ (n m : ℕ) (st : HeapLoopState),
      ((runStepsH model ce bm histRef curRef latest n m st).heap).get r
        = st.heap.get r := by
  intro n
  induction n with
  | zero => intro m st; rfl
  | succ n ih =>
      intro m st
      show ((runStepsH model ce bm histRef curRef latest n (m + 1)
          (forecastStepH model ce bm histRef curRef latest m st)).heap).get r
        = st.heap.get r
      rw [ih (m + 1) (forecastStepH model ce bm histRef curRef latest m st)]
      exact forecastStepH_frame model ce bm histRef curRef latest m st r hne

/-- C8: `generate_forecast` never mutates the caller-owned historical list
object.  In the heap model of Python list aliasing, the contents at `histRef`
are identical before and after the call, on every path (the source copies the
series twice with `list.copy()` and every in-place `append` targets the
second copy `current_ev_totals`; fallback steps append to no list object). -/
theorem claim_C8 (countyName stateName : String) (dates : List ℤ) (h0 : Heap)
    (histRef : ℕ) (countyEncoded : Option ℚ) (model : Option Model) (bm : ℚ)
    (mtn : String) (now : ℤ) (fm : ℕ)
    (hvalid : histRef < h0.data.length) :
    ((generate_forecast_heap countyName stateName dates h0 histRef countyEncoded
        model bm mtn now fm).2).get histRef = h0.get histRef := by
  rcases model with _ | m
  · rfl
  rcases countyEncoded with _ | ce
  · exact Heap.get_alloc_of_lt h0 _ histRef hvalid
  rcases hmax : dates.max? with _ | latest
  · simp only [generate_forecast_heap, hmax]
    exact Heap.get_alloc_of_lt h0 _ histRef hvalid
  · have hlen1 : (h0.alloc (h0.get histRef)).2.data.length
        = h0.data.length + 1 := by
      unfold Heap.alloc
      simp
    have hget2 : ((h0.alloc (h0.get histRef)).2.alloc
        ((h0.alloc (h0.get histRef)).2.get (h0.alloc (h0.get histRef)).1)).2.get
          histRef = h0.get histRef := by
      rw [Heap.get_alloc_of_lt _ _ histRef (by omega)]
      exact Heap.get_alloc_of_lt h0 _ histRef hvalid
    have hcurne : ((h0.alloc (h0.get histRef)).2.alloc
        ((h0.alloc (h0.get histRef)).2.get (h0.alloc (h0.get histRef)).1)).1
        ≠ histRef := by
      show (h0.alloc (h0.get histRef)).2.data.length ≠ histRef
      omega
    simp only [generate_forecast_heap, hmax]
    split
    · exact hget2
    · rw [runStepsH_frame m ce bm histRef _ latest histRef hcurne fm 1]
      exact hget2

/-- Witness for C8: a concrete one-object heap, a succeeding regressor and
horizon 2; the historical list object is unchanged. -/
theorem claim_C8_witness :
    ((generate_forecast_heap "King" "WA" [0, 30, 60] ⟨[[100, 110, 121]]⟩ 0
        (some 7) (some (fun _ => some 130)) 0 "RF" 5 2).2).get 0
      = (⟨[[100, 110, 121]]⟩ : Heap).get 0 :=
  claim_C8 "King" "WA" [0, 30, 60] ⟨[[100, 110, 121]]⟩ 0 (some 7)
    (some (fun _ => some 130)) 0 "RF" 5 2 (by norm_num)

/-!
## Claim C9
-/

/-- C9 counterexample: the result embeds `datetime.now()` in
`metadata.prediction_date`, so two calls with identical inputs (same county,
same history, same deterministic regressor, same horizon) made at different
clock readings (`now = 0` and `now = 1`) return results that are NOT equal in
all fields. -/
theorem claim_C9_counterexample :
    generate_forecast "King" (some ⟨"WA", [0, 30, 60], [1000, 1050, 1100]⟩)
        (some 7) (some (fun _ => some 1150)) 0 "RF" 0 1
      ≠ generate_forecast "King" (some ⟨"WA", [0, 30, 60], [1000, 1050, 1100]⟩)
        (some 7) (some (fun _ => some 1150)) 0 "RF" 1 1 := by
  intro h
  have h2 := congrArg
    (fun e : Except String ForecastResult =>
      match e with
      | Except.ok r => r.metadata.prediction_date
      | Except.error _ => 37) h
  have h3 : (0 : ℤ) = 1 := h2
  exact absurd h3 (by norm_num)

/-- C9 amended: with the generation timestamp abstracted as the explicit
clock input `now`, `generate_forecast` is a pure function of its inputs; two
calls with identical inputs agree on every field except
`metadata.prediction_date`, which records the clock.  In particular two calls
with the same clock reading return identical results. -/
theorem claim_C9 (countyName : String) (countyInfo : Option CountyInfo)
    (countyEncoded : Option ℚ) (model : Option Model) (bm : ℚ) (mtn : String)
    (t1 t2 : ℤ) (fm : ℕ) :
    (generate_forecast countyName countyInfo countyEncoded model bm mtn t1 fm).map
        eraseTimestamp
      = (generate_forecast countyName countyInfo countyEncoded model bm mtn t2 fm).map
        eraseTimestamp ∧
    generate_forecast countyName countyInfo countyEncoded model bm mtn t1 fm
      = generate_forecast countyName countyInfo countyEncoded model bm mtn t1 fm := by
  refine ⟨?_, rfl⟩
  rcases model with _ | m
  · rfl
  rcases countyInfo with _ | info
  · rfl
  rcases countyEncoded with _ | ce
  · rfl
  rcases hmax : info.dates.max? with _ | latest
  · simp only [generate_forecast, hmax]
  · simp only [generate_forecast, hmax]
    by_cases he : info.ev_totals = []
    · rw [if_pos he, if_pos he]
    · rw [if_neg he, if_neg he]
      rfl

end EVForecast
